import Mathlib

/-!
Verification of the Zeroth-AI sandboxed execution and repair pipeline.

The definitions below are a shallow embedding of the repository's server
(`/api/execute` endpoint and `runPython` sandbox executor) and of the
`runAgent` repair loop in the front-end controller.  External AI
collaborators (code generation, repair, optimization) are modelled as
oracle functions supplied in an `Env` record; everything else follows the
source line by line.
-/

namespace ZerothAI

/-! ## Sandbox executor: stderr tokens and line-number remapping

`runPython` captures the child's stderr and rewrites every occurrence of
the regular expression `line (\d+)` via a callback: a matched number `n`
with `n >= 28` is replaced by `n - 27` (the user code starts at line 28 of
the scratch file, after the 27-line injected preamble), any other match is
kept.  We model the captured stderr as the list of regex-split segments:
plain text pieces and `line n` matches. -/

/-- A segment of the captured stderr: either plain text or one match of the
`line (\d+)` pattern carrying the parsed number. -/
inductive ErrTok where
  | text (s : String)
  | lineRef (n : Nat)
  deriving DecidableEq, Repr

/-- Render one segment back to the text it stands for. -/
def renderTok : ErrTok → String
  | ErrTok.text s => s
  | ErrTok.lineRef n => "line " ++ toString n

/-- Render a tokenized stderr back to the raw captured string
(concatenation of all segments, as the regex replace does). -/
def renderErr : List ErrTok → String
  | [] => ""
  | t :: ts => renderTok t ++ renderErr ts

/-- The replace callback of `runPython` (server, lines 158-164): a matched
line number `>= 28` is shifted down by 27, smaller ones are returned
unchanged. -/
def adjustLineNum (n : Nat) : Nat :=
  if n ≥ 28 then n - 27 else n

/-- Apply the replace callback to one segment: text is untouched, a
`line n` match becomes `line (adjustLineNum n)`. -/
def adjustTok : ErrTok → ErrTok
  | ErrTok.text s => ErrTok.text s
  | ErrTok.lineRef n => ErrTok.lineRef (adjustLineNum n)

/-- `error.replace(/line (\d+)/g, ...)` over the tokenized stderr. -/
def adjustError (toks : List ErrTok) : List ErrTok :=
  toks.map adjustTok

/-- The 27 lines the `secureCode` template places before `${code}`
(server, lines 104-130): resource limits, builtin removal and the user-code
marker.  Line 28 of the scratch file is the first line of the user code. -/
def preambleLines : List String :=
  [ ""
  , "import resource"
  , "import sys"
  , "import os"
  , ""
  , "# Secure Sandbox Limits"
  , "try:"
  , "    # Limit CPU time to 2 seconds"
  , "    resource.setrlimit(resource.RLIMIT_CPU, (2, 2))"
  , "    # Limit memory to 256 MB"
  , "    resource.setrlimit(resource.RLIMIT_AS, (256 * 1024 * 1024, 256 * 1024 * 1024))"
  , "    # Prevent creating new files"
  , "    resource.setrlimit(resource.RLIMIT_FSIZE, (0, 0))"
  , "    # Prevent creating new processes (fork bombs)"
  , "    resource.setrlimit(resource.RLIMIT_NPROC, (0, 0))"
  , "except Exception as e:"
  , "    pass # Ignore if resource module fails (e.g. Windows)"
  , ""
  , "# Remove dangerous builtins to prevent basic exploits"
  , "try:"
  , "    del __builtins__.__dict__[\x27open\x27]"
  , "    del __builtins__.__dict__[\x27exec\x27]"
  , "    del __builtins__.__dict__[\x27eval\x27]"
  , "except:"
  , "    pass"
  , ""
  , "# --- User Code ---" ]

/-- The lines of the scratch file `secureCode`: the fixed preamble, then
the user's code, then the final empty line left by the trailing newline of
the template. -/
def secureCodeLines (userLines : List String) : List String :=
  preambleLines ++ userLines ++ [""]

/-! ## Sandbox executor: exit-status classification and cleanup

The `close` handler of `runPython` (server, lines 152-179) removes the
scratch file, remaps stderr, and classifies the exit status; the hard
3-second timer (lines 182-186) kills the process, removes the scratch
file, and rejects with a hard-timeout error.  A resolved run yields
`Except.ok stdout`; a rejected run yields `Except.error message`. -/

/-- The body of `py.on("close", ...)`: classify the exit status given the
captured stdout and the tokenized captured stderr.  `adjustedError` is the
remapped stderr when the captured stderr is nonempty (server, lines
155-165); the final reject uses `adjustedError || "Process exited with
code " + code` (line 176). -/
def closeHandler (exitCode : Int) (stdout : String) (stderrToks : List ErrTok) :
    Except String String :=
  let error := renderErr stderrToks
  let adjustedError := if error = "" then error else renderErr (adjustError stderrToks)
  if exitCode = 0 then
    Except.ok stdout
  else if exitCode = 137 ∨ exitCode = 9 then
    Except.error "Memory Limit Exceeded or Process Killed"
  else if exitCode = 152 ∨ exitCode = 24 then
    Except.error "CPU Time Limit Exceeded"
  else
    Except.error
      (if adjustedError = "" then "Process exited with code " ++ toString exitCode
       else adjustedError)

/-- The paths by which one `runPython` call can end after the scratch file
is written.  `runPython` installs handlers only for the child's `close`
event (lines 152-179) and for the hard 3-second timer (lines 182-186); it
installs no listener for the child's `error` event, so a spawn failure
(or a fault on the stdin stream) emits an unhandled `error` event —
`spawnError` — on which neither handler runs. -/
inductive ExitPath where
  | closeEvt (exitCode : Int) (stdout : String) (stderrToks : List ErrTok)
  | hardTimeout
  | spawnError (message : String)
  deriving Repr

/-- The scratch-file state of one `runPython` call. -/
structure SandboxFs where
  tempFileExists : Bool
  deriving DecidableEq, Repr

/-- `if (fs.existsSync(tempFile)) fs.unlinkSync(tempFile)` — performed by
both the close handler (line 153) and the timeout handler (line 184). -/
def removeTempIfExists (fs : SandboxFs) : SandboxFs :=
  if fs.tempFileExists then { fs with tempFileExists := false } else fs

/-- One full `runPython` call: the scratch file is written
(`fs.writeFileSync`, line 135), then the call ends by exactly one exit
path.  The close handler and the timeout handler each remove the scratch
file before settling the promise (`some` outcome); an unhandled `error`
event crashes before any handler runs, so no unlink happens and the
promise never settles (`none`). -/
def runPythonExit : ExitPath → SandboxFs × Option (Except String String)
  | ExitPath.closeEvt exitCode stdout stderrToks =>
      (removeTempIfExists { tempFileExists := true },
       some (closeHandler exitCode stdout stderrToks))
  | ExitPath.hardTimeout =>
      (removeTempIfExists { tempFileExists := true },
       some (Except.error "Time Limit Exceeded (Hard Timeout)"))
  | ExitPath.spawnError _ =>
      ({ tempFileExists := true }, none)

/-- Drop leading whitespace characters from a character list. -/
def dropLeadingWs : List Char → List Char
  | [] => []
  | c :: cs => if c.isWhitespace then dropLeadingWs cs else c :: cs

/-- The JavaScript `String.prototype.trim()`: remove surrounding
whitespace.  (Defined by structural recursion so that concrete runs
evaluate.) -/
def jsTrim (s : String) : String :=
  String.mk ((dropLeadingWs ((dropLeadingWs s.data).reverse)).reverse)

/-! ## The `/api/execute` endpoint (server, lines 42-75)

The executor for one candidate and one input is abstracted as an oracle
`runPy : String → String → Except String String` (resolve with stdout, or
reject with an error message), matching the promise interface of
`runPython`. -/

/-- One test vector of the request body. -/
structure TestCase where
  input : String
  expectedOutput : String
  deriving DecidableEq, Repr

/-- One entry of the response's `results` array. -/
structure TestResult where
  input : String
  expectedOutput : String
  actualOutput : Option String
  error : Option String
  passed : Bool
  deriving DecidableEq, Repr

/-- The endpoint's response: HTTP 400 with an error body, or HTTP 200 with
the results array. -/
inductive ApiResponse where
  | badRequest (error : String)
  | ok (results : List TestResult)
  deriving DecidableEq, Repr

/-- The loop body of the endpoint for one test case (server, lines 51-72):
for `python`, run the executor and compare trimmed outputs, catching a
rejection into a failed result; for the other supported languages, the
mock branch fabricates a passing result. -/
def execOne (runPy : String → String → Except String String)
    (code language : String) (tc : TestCase) : TestResult :=
  if language = "python" then
    match runPy code tc.input with
    | Except.ok output =>
        { input := tc.input, expectedOutput := tc.expectedOutput,
          actualOutput := some output, error := none,
          passed := jsTrim output = jsTrim tc.expectedOutput }
    | Except.error msg =>
        { input := tc.input, expectedOutput := tc.expectedOutput,
          actualOutput := none, error := some msg, passed := false }
  else
    { input := tc.input, expectedOutput := tc.expectedOutput,
      actualOutput := some tc.expectedOutput, error := none, passed := true }

/-- Whether the requested language passes the guard at the top of the
endpoint (server, line 45). -/
def supportedLanguage (language : String) : Bool :=
  language = "python" ∨ language = "cpp" ∨ language = "java"

/-- The `/api/execute` handler: reject unsupported languages with HTTP 400
before anything else; otherwise produce one result per test case, in
order. -/
def apiExecute (runPy : String → String → Except String String)
    (code language : String) (testCases : List TestCase) : ApiResponse :=
  if ¬ supportedLanguage language then
    ApiResponse.badRequest "Unsupported language."
  else
    ApiResponse.ok (testCases.map (execOne runPy code language))

/-! ## The repair loop controller (`runAgent`, App.tsx lines 706-834)

The external collaborators (the `/api/execute` fetch, `debugAndRepair`,
`optimizeCode`) are modelled as oracle functions in an `Env`; a
collaborator call that rejects is an `Except.error`.  The test-vector set
is fixed for a run, so the fetch is abstracted as a per-candidate result
list. -/

/-- The collaborator oracles one run of `runAgent` interacts with from the
test-and-repair loop onward. -/
structure Env where
  execute : String → List TestResult
  repair : String → List TestResult → Except String String
  optimize : String → Except String String

/-- `const MAX_ITERATIONS = 5` (App.tsx, line 759). -/
def MAX_ITERATIONS : Nat := 5

/-- One iteration of the loop, as observed: the candidate that was
executed, the full result set, and the derived passed count. -/
structure IterationRecord where
  code : String
  results : List TestResult
  passedCount : Nat
  deriving DecidableEq, Repr

/-- The mutable state of the test-and-repair loop (App.tsx, lines
758-763), plus two pieces of instrumentation: `history` records one
`IterationRecord` per `/api/execute` call, and `aborted` holds the thrown
error once an exception escapes the loop body (the `throw` at line 798 or
a rejected repair call). -/
structure LoopState where
  iterations : Nat
  currentCode : String
  testResults : List TestResult
  allPassed : Bool
  bestCode : String
  maxPassedCount : Int
  bestResults : List TestResult
  history : List IterationRecord
  aborted : Option String

/-- The execution step of one iteration (App.tsx, lines 769-778): run the
current candidate over the fixed test-vector set and derive the passed
count `results.filter((r) => r.passed).length`. -/
def runRecord (env : Env) (s : LoopState) : IterationRecord :=
  let results := env.execute s.currentCode
  { code := s.currentCode, results := results,
    passedCount := (results.filter (fun r => r.passed)).length }

/-- The best-candidate update (App.tsx, lines 779-783): replace the stored
best state only when the new pass count strictly exceeds the stored
maximum. -/
def considerBest (s : LoopState) (record : IterationRecord) : LoopState :=
  if (record.passedCount : Int) > s.maxPassedCount then
    { s with maxPassedCount := (record.passedCount : Int),
             bestCode := record.code, bestResults := record.results }
  else s

/-- The body of the `while` loop (App.tsx, lines 765-808): execute the
current candidate, update the best-candidate state, and either finish (no
failures), repair (budget left), or fall through (budget exhausted).  An
empty or all-whitespace repair candidate throws (line 798), as does a
rejected repair call; either lands in `aborted`. -/
def loopBody (env : Env) (s : LoopState) : LoopState :=
  let record := runRecord env s
  let s1 := { s with iterations := s.iterations + 1, testResults := record.results,
                     history := s.history ++ [record] }
  let s2 := considerBest s1 record
  let failed := record.results.filter (fun r => !r.passed)
  if failed.length = 0 then
    { s2 with allPassed := true }
  else if s.iterations + 1 < MAX_ITERATIONS then
    match env.repair s2.currentCode failed with
    | Except.error e => { s2 with aborted := some e }
    | Except.ok d =>
        if d = "" ∨ jsTrim d = "" then
          { s2 with aborted := some "Self-repair generated empty code. Aborting." }
        else
          { s2 with currentCode := d }
  else s2

/-- `while (!allPassed && iterations < MAX_ITERATIONS) { ... }` with a
fuel bound (the fuel is always instantiated with `MAX_ITERATIONS`, which
dominates the loop guard); a thrown error stops the loop at once. -/
def runLoop (env : Env) : Nat → LoopState → LoopState
  | 0, s => s
  | fuel + 1, s =>
      if s.aborted.isSome then s
      else if s.allPassed ∨ ¬ s.iterations < MAX_ITERATIONS then s
      else runLoop env fuel (loopBody env s)

/-- The loop state at the start of a run (App.tsx, lines 758-763). -/
def initState (initialCode : String) : LoopState :=
  { iterations := 0, currentCode := initialCode, testResults := [],
    allPassed := false, bestCode := initialCode, maxPassedCount := -1,
    bestResults := [], history := [], aborted := none }

/-- The loop state when the `while` loop of `runAgent` has finished (or an
exception escaped it). -/
def runAgentState (env : Env) (initialCode : String) : LoopState :=
  runLoop env MAX_ITERATIONS (initState initialCode)

/-- The candidate the controller carries out of the loop (App.tsx, lines
810-815): the tracked best candidate when not every test passed, otherwise
the current one. -/
def chosenCode (s : LoopState) : String :=
  if ¬ s.allPassed then s.bestCode else s.currentCode

/-- The result set the controller carries out of the loop. -/
def chosenResults (s : LoopState) : List TestResult :=
  if ¬ s.allPassed then s.bestResults else s.testResults

/-- The pipeline states a run can end in (`setStep`, App.tsx lines 828 and
831). -/
inductive Step where
  | completed
  | failed
  deriving DecidableEq, Repr

/-- What a finished run exposes: the terminal pipeline step, the final
`code` and `testResults` React state, the recorded iterations, and the
error caught by the top-level handler, if any.  `finalCode` is the
verified candidate entering the optimization stage. -/
structure AgentResult where
  step : Step
  code : String
  finalCode : String
  testResults : List TestResult
  history : List IterationRecord
  allPassed : Bool
  maxPassedCount : Int
  errorMsg : Option String

/-- The tail of `runAgent` after the loop (App.tsx, lines 810-833): fall
back to the best candidate when not all tests passed, then invoke the
optimization collaborator; its rewrite replaces the code on success, and
any thrown error reaches the top-level catch, which sets the `failed`
step without touching the code state. -/
def agentFinish (env : Env) (s : LoopState) : AgentResult :=
  match s.aborted with
  | some e =>
      { step := Step.failed, code := s.currentCode, finalCode := s.currentCode,
        testResults := s.testResults, history := s.history,
        allPassed := s.allPassed, maxPassedCount := s.maxPassedCount,
        errorMsg := some e }
  | none =>
      let currentCode := chosenCode s
      let testResults := chosenResults s
      match env.optimize currentCode with
      | Except.ok optimized =>
          { step := Step.completed, code := optimized, finalCode := currentCode,
            testResults := testResults, history := s.history,
            allPassed := s.allPassed, maxPassedCount := s.maxPassedCount,
            errorMsg := none }
      | Except.error e =>
          { step := Step.failed, code := currentCode, finalCode := currentCode,
            testResults := testResults, history := s.history,
            allPassed := s.allPassed, maxPassedCount := s.maxPassedCount,
            errorMsg := some e }

/-- One full run of the controller from the test-and-repair loop onward. -/
def runAgent (env : Env) (initialCode : String) : AgentResult :=
  agentFinish env (runAgentState env initialCode)

/-! ## The best-candidate bookkeeping, specified

`stepMax` is the update the loop applies to `maxPassedCount` at line 779:
replace the stored maximum only on a strictly greater pass count. -/

/-- The stored-maximum update for one iteration record. -/
def stepMax (m : Int) (rec : IterationRecord) : Int :=
  if (rec.passedCount : Int) > m then (rec.passedCount : Int) else m

/-- The stored maximum after a sequence of iteration records, starting
from the initial value `-1`. -/
def runningMax (hist : List IterationRecord) : Int :=
  hist.foldl stepMax (-1)

/-! ## Helper lemmas -/

theorem string_append_eq_empty_iff (a b : String) : a ++ b = "" ↔ a = "" ∧ b = "" := by
  constructor
  · intro h
    have hd : (a ++ b).data = [] := by rw [h]
    rw [String.data_append] at hd
    rcases List.append_eq_nil.mp hd with ⟨ha, hb⟩
    exact ⟨by cases a; simp_all [String.ext_iff], by cases b; simp_all [String.ext_iff]⟩
  · rintro ⟨rfl, rfl⟩; rfl

theorem line_string_ne_empty (n : Nat) : ("line " ++ toString n) ≠ "" := by
  intro h
  have hd : ("line " ++ toString n).data = [] := by rw [h]
  rw [String.data_append] at hd
  have := List.append_eq_nil.mp hd
  simp [String.data] at this

theorem renderTok_adjust_eq_empty (t : ErrTok) :
    renderTok (adjustTok t) = "" ↔ renderTok t = "" := by
  cases t with
  | text s => rfl
  | lineRef n =>
      simp only [adjustTok, renderTok]
      exact ⟨fun h => absurd h (line_string_ne_empty _),
             fun h => absurd h (line_string_ne_empty _)⟩

theorem renderErr_adjust_eq_empty (toks : List ErrTok) :
    renderErr (adjustError toks) = "" ↔ renderErr toks = "" := by
  induction toks with
  | nil => rfl
  | cons t ts ih =>
      simp only [adjustError, List.map_cons, renderErr] at *
      rw [string_append_eq_empty_iff, string_append_eq_empty_iff,
          renderTok_adjust_eq_empty, ih]

/-! ## Claims about the sandbox executor and the execute endpoint -/

/-- C4: a request whose `language` is outside the supported set
{python, cpp, java} is rejected with the configuration error before any
test vector is processed or any executor call happens (the response does
not depend on the executor or the test-case list); a supported language is
never rejected. -/
theorem api_execute_language_gate (runPy : String → String → Except String String)
    (code language : String) (testCases : List TestCase) :
    (supportedLanguage language = false →
      apiExecute runPy code language testCases = ApiResponse.badRequest "Unsupported language." ∧
      (∀ runPy2 code2 testCases2,
        apiExecute runPy code language testCases = apiExecute runPy2 code2 language testCases2)) ∧
    (supportedLanguage language = true →
      apiExecute runPy code language testCases =
        ApiResponse.ok (testCases.map (execOne runPy code language))) := by
  constructor
  · intro h
    constructor
    · simp [apiExecute, h]
    · intro runPy2 code2 testCases2
      simp [apiExecute, h]
  · intro h
    simp [apiExecute, h]

/-- Witness for C4 at a concrete unsupported and a concrete supported
request. -/
theorem api_execute_language_gate_witness :
    apiExecute (fun _ _ => Except.error "spawn failure") "print(1)" "ruby"
        [{ input := "1", expectedOutput := "1" }] =
      ApiResponse.badRequest "Unsupported language." ∧
    apiExecute (fun _ inp => Except.ok inp) "print(1)" "python" [] =
      ApiResponse.ok [] := by
  constructor
  · exact ((api_execute_language_gate (fun _ _ => Except.error "spawn failure")
      "print(1)" "ruby" [{ input := "1", expectedOutput := "1" }]).1 (by decide)).1
  · exact (api_execute_language_gate (fun _ inp => Except.ok inp)
      "print(1)" "python" []).2 (by decide)

/-- C5: for a python request, one result is produced per test vector in
order (none skipped); a result passes exactly when the executor resolved
and the trimmed actual output equals the trimmed expected output, and an
executor rejection of any kind yields a failed result carrying the fault
message. -/
theorem python_outcome_spec (runPy : String → String → Except String String)
    (code : String) (testCases : List TestCase) :
    ∃ rs : List TestResult, apiExecute runPy code "python" testCases = ApiResponse.ok rs ∧
      rs.length = testCases.length ∧
      ∀ (i : Nat) (tc : TestCase), testCases[i]? = some tc →
        ∃ r : TestResult, rs[i]? = some r ∧ r.input = tc.input ∧ r.expectedOutput = tc.expectedOutput ∧
          (r.passed = true ↔
            ∃ out : String, runPy code tc.input = Except.ok out ∧
              jsTrim out = jsTrim tc.expectedOutput) ∧
          (∀ msg, runPy code tc.input = Except.error msg →
            r.passed = false ∧ r.error = some msg ∧ r.actualOutput = none) := by
  refine ⟨testCases.map (execOne runPy code "python"), ?_, by simp, ?_⟩
  · simp [apiExecute, supportedLanguage]
  · intro i tc htc
    refine ⟨execOne runPy code "python" tc, ?_, ?_⟩
    · simp [List.getElem?_map, htc]
    · cases hrun : runPy code tc.input with
      | ok out =>
          refine ⟨by simp [execOne, hrun], by simp [execOne, hrun], ?_, ?_⟩
          · simp [execOne, hrun]
          · intro msg hmsg
            exact Except.noConfusion hmsg
      | error msg =>
          refine ⟨by simp [execOne, hrun], by simp [execOne, hrun], ?_, ?_⟩
          · simp [execOne, hrun]
          · intro msg2 hmsg2
            injection hmsg2 with h2
            subst h2
            simp [execOne, hrun]

/-- Witness for C5 at a concrete echoing executor and one test vector. -/
theorem python_outcome_spec_witness :
    ∃ rs : List TestResult, apiExecute (fun _ inp => Except.ok inp) "src" "python"
        [{ input := " 42 ", expectedOutput := "42" }] = ApiResponse.ok rs ∧
      rs.length = 1 ∧
      ∀ (i : Nat) (tc : TestCase), ([{ input := " 42 ", expectedOutput := "42" }] : List TestCase)[i]? = some tc →
        ∃ r : TestResult, rs[i]? = some r ∧ r.input = tc.input ∧ r.expectedOutput = tc.expectedOutput ∧
          (r.passed = true ↔
            ∃ out : String, (fun (_ : String) (inp : String) => Except.ok (ε := String) inp) "src" tc.input = Except.ok out ∧
              jsTrim out = jsTrim tc.expectedOutput) ∧
          (∀ msg, (fun (_ : String) (inp : String) => Except.ok (ε := String) inp) "src" tc.input = Except.error msg →
            r.passed = false ∧ r.error = some msg ∧ r.actualOutput = none) :=
  python_outcome_spec (fun _ inp => Except.ok inp) "src" [{ input := " 42 ", expectedOutput := "42" }]

/-- C6 counterexample: at exit status 1 with empty captured stderr, the
rejection detail is the generic exit-code message, not the captured
stderr — refuting that any other nonzero status carries the captured
stderr as the error detail. -/
theorem exit_status_stderr_counterexample :
    closeHandler 1 "" [] = Except.error "Process exited with code 1" ∧
    renderErr [] = "" ∧
    "Process exited with code 1" ≠ renderErr [] := by
  refine ⟨rfl, rfl, by decide⟩

/-- C6 (amended): on child-process close, exit status 0 resolves with the
captured stdout; statuses 137 and 9 reject as memory-limit/kill; statuses
152 and 24 reject as CPU-limit; any other nonzero status rejects as a
runtime error whose detail is the line-remapped captured stderr when the
captured stderr is nonempty, and otherwise a generic message naming the
exit status. -/
theorem exit_status_classification (exitCode : Int) (stdout : String)
    (stderrToks : List ErrTok) :
    (exitCode = 0 → closeHandler exitCode stdout stderrToks = Except.ok stdout) ∧
    (exitCode = 137 ∨ exitCode = 9 →
      closeHandler exitCode stdout stderrToks =
        Except.error "Memory Limit Exceeded or Process Killed") ∧
    (exitCode = 152 ∨ exitCode = 24 →
      closeHandler exitCode stdout stderrToks =
        Except.error "CPU Time Limit Exceeded") ∧
    (exitCode ≠ 0 → ¬ (exitCode = 137 ∨ exitCode = 9) →
      ¬ (exitCode = 152 ∨ exitCode = 24) →
      closeHandler exitCode stdout stderrToks =
        Except.error
          (if renderErr stderrToks = "" then
            "Process exited with code " ++ toString exitCode
           else renderErr (adjustError stderrToks))) := by
  refine ⟨?_, ?_, ?_, ?_⟩
  · intro h
    simp [closeHandler, h]
  · intro h
    have h0 : ¬ exitCode = 0 := by rcases h with h | h <;> omega
    simp [closeHandler, h0, h]
  · intro h
    have h0 : ¬ exitCode = 0 := by rcases h with h | h <;> omega
    have h1 : ¬ (exitCode = 137 ∨ exitCode = 9) := by rcases h with h | h <;> omega
    simp [closeHandler, h0, h1, h]
  · intro h0 h1 h2
    simp only [closeHandler, if_neg h0, if_neg h1, if_neg h2]
    by_cases he : renderErr stderrToks = ""
    · simp [he]
    · have ha : ¬ renderErr (adjustError stderrToks) = "" := by
        rw [renderErr_adjust_eq_empty]
        exact he
      simp [he, ha]

/-- Witness for C6 (amended) at exit status 1 with a remappable stderr. -/
theorem exit_status_classification_witness :
    closeHandler 1 "" [ErrTok.text "boom at ", ErrTok.lineRef 30] =
      Except.error
        (if renderErr [ErrTok.text "boom at ", ErrTok.lineRef 30] = "" then
          "Process exited with code " ++ toString (1 : Int)
         else renderErr (adjustError [ErrTok.text "boom at ", ErrTok.lineRef 30])) :=
  (exit_status_classification 1 "" [ErrTok.text "boom at ", ErrTok.lineRef 30]).2.2.2
    (by decide) (by decide) (by decide)

/-- C7: every `line n` occurrence in the captured stderr with `n ≥ 28`
(the region of the scratch file the user's code occupies) is remapped to
`line (n - 27)`, which is a valid 1-based line number of the user's
original source: scratch-file line `n` is exactly user-source line
`n - 27`. -/
theorem stderr_line_remap (toks : List ErrTok) (i n : Nat)
    (hget : toks[i]? = some (ErrTok.lineRef n)) (hn : 28 ≤ n) :
    (adjustError toks)[i]? = some (ErrTok.lineRef (n - 27)) ∧
    1 ≤ n - 27 ∧
    ∀ userLines : List String, n ≤ 27 + userLines.length →
      (secureCodeLines userLines)[n - 1]? = userLines[(n - 27) - 1]? := by
  refine ⟨?_, by omega, ?_⟩
  · simp only [adjustError, List.getElem?_map, hget, Option.map_some]
    simp [adjustTok, adjustLineNum, hn]
  · intro userLines hub
    have hpre : preambleLines.length = 27 := by rfl
    rw [secureCodeLines, List.append_assoc, List.getElem?_append]
    have hn1 : ¬ n - 1 < preambleLines.length := by omega
    simp only [if_neg hn1, hpre]
    rw [List.getElem?_append]
    have hn2 : n - 1 - 27 < userLines.length := by omega
    simp only [if_pos hn2]
    have hidx : n - 1 - 27 = n - 27 - 1 := by omega
    rw [hidx]
    have hn1c : ¬ n - 1 < 27 := by omega
    simp only [if_neg hn1c]

/-- Witness for C7: a runtime error at scratch-file line 30 is reported at
user-source line 3. -/
theorem stderr_line_remap_witness :
    (adjustError [ErrTok.text "Traceback ", ErrTok.lineRef 30])[1]? =
      some (ErrTok.lineRef 3) ∧
    1 ≤ 30 - 27 ∧
    ∀ userLines : List String, 30 ≤ 27 + userLines.length →
      (secureCodeLines userLines)[30 - 1]? = userLines[(30 - 27) - 1]? :=
  stderr_line_remap [ErrTok.text "Traceback ", ErrTok.lineRef 30] 1 30
    (by decide) (by decide)

/-- C9 counterexample: on the spawn-failure path — an `error` event with
no listener, e.g. `python3` missing — neither the close handler nor the
timeout handler runs: the scratch file written at line 135 still exists
and the call never settles, refuting that every exit path removes the
scratch file before the call returns. -/
theorem scratch_file_spawn_failure_counterexample :
    (runPythonExit (ExitPath.spawnError "spawn python3 ENOENT")).1.tempFileExists
      = true ∧
    (runPythonExit (ExitPath.spawnError "spawn python3 ENOENT")).2 = none := by
  exact ⟨rfl, rfl⟩

/-- C9 (amended): on every path that settles a `runPython` call — the
close handler (normal completion, runtime error, resource kill) and the
hard-timeout handler — the scratch file is removed before the promise
settles; but a spawn failure raises an unhandled `error` event before
either handler runs, and on that path the scratch file is left behind and
the call never settles. -/
theorem scratch_file_removed_on_settle (p : ExitPath) :
    (∀ r : Except String String,
      (runPythonExit p).2 = some r → (runPythonExit p).1.tempFileExists = false) ∧
    (∀ e : String, p = ExitPath.spawnError e →
      (runPythonExit p).1.tempFileExists = true ∧ (runPythonExit p).2 = none) := by
  cases p with
  | closeEvt exitCode stdout stderrToks =>
      refine ⟨fun r hr => ?_, fun e he => ?_⟩
      · simp [runPythonExit, removeTempIfExists]
      · cases he
  | hardTimeout =>
      refine ⟨fun r hr => ?_, fun e he => ?_⟩
      · simp [runPythonExit, removeTempIfExists]
      · cases he
  | spawnError message =>
      refine ⟨fun r hr => ?_, fun e he => ?_⟩
      · exact absurd hr (by simp [runPythonExit])
      · exact ⟨rfl, rfl⟩

/-- Witness for C9 (amended) at a concrete settling path and the concrete
spawn-failure path. -/
theorem scratch_file_removed_on_settle_witness :
    (runPythonExit ExitPath.hardTimeout).1.tempFileExists = false ∧
    (runPythonExit (ExitPath.spawnError "spawn python3 ENOENT")).1.tempFileExists
      = true ∧
    (runPythonExit (ExitPath.spawnError "spawn python3 ENOENT")).2 = none := by
  refine ⟨?_, ?_, ?_⟩
  · exact (scratch_file_removed_on_settle ExitPath.hardTimeout).1
      (Except.error "Time Limit Exceeded (Hard Timeout)") rfl
  · exact ((scratch_file_removed_on_settle
      (ExitPath.spawnError "spawn python3 ENOENT")).2 "spawn python3 ENOENT" rfl).1
  · exact ((scratch_file_removed_on_settle
      (ExitPath.spawnError "spawn python3 ENOENT")).2 "spawn python3 ENOENT" rfl).2

/-! ## Loop lemmas -/

theorem loopBody_iterations (env : Env) (s : LoopState) :
    (loopBody env s).iterations = s.iterations + 1 := by
  simp only [loopBody, considerBest]
  repeat' split
  all_goals rfl

theorem loopBody_history (env : Env) (s : LoopState) :
    (loopBody env s).history = s.history ++ [runRecord env s] := by
  simp only [loopBody, considerBest]
  repeat' split
  all_goals rfl

theorem loopBody_maxPassedCount (env : Env) (s : LoopState) :
    (loopBody env s).maxPassedCount = stepMax s.maxPassedCount (runRecord env s) := by
  simp only [loopBody, considerBest, stepMax]
  repeat' split
  all_goals first | rfl | omega

theorem loopBody_best (env : Env) (s : LoopState) :
    ((loopBody env s).bestCode = (runRecord env s).code ∧
      (loopBody env s).bestResults = (runRecord env s).results ∧
      ((runRecord env s).passedCount : Int) > s.maxPassedCount) ∨
    ((loopBody env s).bestCode = s.bestCode ∧
      (loopBody env s).bestResults = s.bestResults ∧
      ¬ ((runRecord env s).passedCount : Int) > s.maxPassedCount) := by
  by_cases h : ((runRecord env s).passedCount : Int) > s.maxPassedCount
  · left
    refine ⟨?_, ?_, h⟩ <;>
      (simp only [loopBody, considerBest]
       repeat' split
       all_goals first | rfl | omega)
  · right
    refine ⟨?_, ?_, h⟩ <;>
      (simp only [loopBody, considerBest]
       repeat' split
       all_goals first | rfl | omega)

theorem runLoop_of_aborted (env : Env) (fuel : Nat) (s : LoopState)
    (h : s.aborted.isSome) : runLoop env fuel s = s := by
  cases fuel with
  | zero => rfl
  | succ n => simp [runLoop, h]

/-- The inductive invariant of the test-and-repair loop: the history has
one record per counted iteration, the counter respects the budget, the
stored maximum is the running maximum of the recorded pass counts, and the
stored best candidate is the earliest recorded iteration achieving that
maximum. -/
structure LoopInv (s : LoopState) : Prop where
  histLen : s.history.length = s.iterations
  iterLe : s.iterations ≤ MAX_ITERATIONS
  maxEq : s.maxPassedCount = runningMax s.history
  best : (s.history = [] ∧ s.maxPassedCount = -1) ∨
    ∃ (i : Nat) (rec : IterationRecord), s.history[i]? = some rec ∧ rec.code = s.bestCode ∧
      rec.results = s.bestResults ∧ (rec.passedCount : Int) = s.maxPassedCount ∧
      (∀ (j : Nat) (recj : IterationRecord),
        s.history[j]? = some recj → recj.passedCount ≤ rec.passedCount) ∧
      (∀ (j : Nat) (recj : IterationRecord),
        s.history[j]? = some recj → j < i → recj.passedCount < rec.passedCount)

theorem runningMax_concat (hist : List IterationRecord) (rec : IterationRecord) :
    runningMax (hist ++ [rec]) = stepMax (runningMax hist) rec := by
  simp [runningMax, List.foldl_append]

theorem loopBody_inv (env : Env) (s : LoopState) (h : LoopInv s)
    (hit : s.iterations < MAX_ITERATIONS) : LoopInv (loopBody env s) := by
  refine ⟨?_, ?_, ?_, ?_⟩
  · rw [loopBody_history, loopBody_iterations, List.length_append, h.histLen]
    rfl
  · rw [loopBody_iterations]
    omega
  · rw [loopBody_maxPassedCount, loopBody_history, runningMax_concat, h.maxEq]
  · rw [loopBody_history, loopBody_maxPassedCount]
    rcases loopBody_best env s with ⟨hbc, hbr, hgt⟩ | ⟨hbc, hbr, hle⟩
    · right
      refine ⟨s.history.length, runRecord env s, ?_, ?_, ?_, ?_, ?_, ?_⟩
      · rw [List.getElem?_concat_length]
      · exact hbc.symm
      · exact hbr.symm
      · simp only [stepMax, if_pos hgt]
      · intro j recj hj
        rcases Nat.lt_or_ge j s.history.length with hlt | hge
        · rw [List.getElem?_append, if_pos hlt] at hj
          have hmax : (recj.passedCount : Int) ≤ s.maxPassedCount := by
            rcases h.best with ⟨hnil, -⟩ | ⟨i0, rec0, hget0, -, -, hcnt0, hall0, -⟩
            · rw [hnil] at hj
              simp at hj
            · have := hall0 j recj hj
              omega
          omega
        · have hj2 : j = s.history.length := by
            have hlen := (List.getElem?_eq_some.mp hj).1
            simp only [List.length_append, List.length_singleton] at hlen
            omega
          rw [hj2, List.getElem?_concat_length] at hj
          cases hj
          exact Nat.le_refl _
      · intro j recj hj hjlt
        have hlt : j < s.history.length := by
          simpa using hjlt
        rw [List.getElem?_append, if_pos hlt] at hj
        have hmax : (recj.passedCount : Int) ≤ s.maxPassedCount := by
          rcases h.best with ⟨hnil, -⟩ | ⟨i0, rec0, hget0, -, -, hcnt0, hall0, -⟩
          · rw [hnil] at hj
            simp at hj
          · have := hall0 j recj hj
            omega
        omega
    · rcases h.best with ⟨hnil, hneg⟩ | ⟨i0, rec0, hget0, hcode0, hres0, hcnt0, hall0, hfirst0⟩
      · exfalso
        rw [hneg] at hle
        omega
      · right
        have hi0 : i0 < s.history.length := (List.getElem?_eq_some.mp hget0).1
        refine ⟨i0, rec0, ?_, ?_, ?_, ?_, ?_, ?_⟩
        · rw [List.getElem?_append, if_pos hi0]
          exact hget0
        · rw [hcode0, hbc]
        · rw [hres0, hbr]
        · simp only [stepMax, if_neg hle]
          exact hcnt0
        · intro j recj hj
          rcases Nat.lt_or_ge j s.history.length with hlt | hge
          · rw [List.getElem?_append, if_pos hlt] at hj
            exact hall0 j recj hj
          · have hj2 : j = s.history.length := by
              have hlen := (List.getElem?_eq_some.mp hj).1
              simp only [List.length_append, List.length_singleton] at hlen
              omega
            rw [hj2, List.getElem?_concat_length] at hj
            cases hj
            omega
        · intro j recj hj hjlt
          have hlt : j < s.history.length := Nat.lt_trans hjlt hi0
          rw [List.getElem?_append, if_pos hlt] at hj
          exact hfirst0 j recj hj hjlt

theorem runLoop_inv (env : Env) (fuel : Nat) (s : LoopState) (h : LoopInv s) :
    LoopInv (runLoop env fuel s) := by
  induction fuel generalizing s with
  | zero => exact h
  | succ n ih =>
      simp only [runLoop]
      split
      · exact h
      · split
        · exact h
        · rename_i hguard
          have hit : s.iterations < MAX_ITERATIONS := by
            by_contra hc
            exact hguard (Or.inr hc)
          exact ih (loopBody env s) (loopBody_inv env s h hit)

theorem initState_inv (initialCode : String) : LoopInv (initState initialCode) := by
  refine ⟨rfl, by simp [initState, MAX_ITERATIONS], rfl, Or.inl ⟨rfl, rfl⟩⟩

theorem agentFinish_history (env : Env) (s : LoopState) :
    (agentFinish env s).history = s.history := by
  simp only [agentFinish]
  repeat' split
  all_goals rfl

/-- C1: for every run of the repair loop, at most `MAX_ITERATIONS = 5`
executions of the full test-vector set occur: the run records at most 5
iteration result sets no matter how the executions and repairs turn
out. -/
theorem repair_loop_bounded (env : Env) (initialCode : String) :
    (runAgent env initialCode).history.length ≤ MAX_ITERATIONS ∧
    MAX_ITERATIONS = 5 := by
  have hinv := runLoop_inv env MAX_ITERATIONS (initState initialCode)
    (initState_inv initialCode)
  constructor
  · rw [runAgent, agentFinish_history, runAgentState]
    rw [hinv.histLen]
    exact hinv.iterLe
  · rfl

theorem le_foldl_stepMax (l : List IterationRecord) (m : Int) :
    m ≤ l.foldl stepMax m := by
  induction l generalizing m with
  | nil => exact le_refl m
  | cons r t ih =>
      have h1 : m ≤ stepMax m r := by
        simp only [stepMax]
        split <;> omega
      exact le_trans h1 (ih (stepMax m r))

theorem runningMax_take_le (hist : List IterationRecord) (n : Nat) :
    runningMax (hist.take n) ≤ runningMax hist := by
  conv_rhs => rw [← List.take_append_drop n hist]
  rw [runningMax, runningMax, List.foldl_append]
  exact le_foldl_stepMax _ _

theorem agentFinish_of_not_aborted (env : Env) (s : LoopState)
    (hab : s.aborted = none) :
    (agentFinish env s).finalCode = chosenCode s ∧
    (agentFinish env s).testResults = chosenResults s ∧
    (agentFinish env s).maxPassedCount = s.maxPassedCount ∧
    (agentFinish env s).allPassed = s.allPassed := by
  simp only [agentFinish, hab]
  cases env.optimize (chosenCode s) <;> simp

/-- C2: the best-candidate state starts at stored maximum `-1` and is
replaced only on a strictly greater pass count, so the stored maximum is
the running maximum of the recorded pass counts (never decreasing over any
prefix of the run), and when the loop ends without all tests passing the
reported candidate and result set are those of the earliest recorded
iteration achieving the maximal pass count — ties keep the first-seen
winner. -/
theorem best_candidate_tracker (env : Env) (c0 : String)
    (hab : (runAgentState env c0).aborted = none)
    (hnp : (runAgentState env c0).allPassed = false)
    (hne : (runAgentState env c0).history ≠ []) :
    ∃ (i : Nat) (rec : IterationRecord),
      (runAgent env c0).history[i]? = some rec ∧
      (runAgent env c0).finalCode = rec.code ∧
      (runAgent env c0).testResults = rec.results ∧
      (rec.passedCount : Int) = (runAgent env c0).maxPassedCount ∧
      (∀ (j : Nat) (recj : IterationRecord),
        (runAgent env c0).history[j]? = some recj →
          recj.passedCount ≤ rec.passedCount) ∧
      (∀ (j : Nat) (recj : IterationRecord),
        (runAgent env c0).history[j]? = some recj → j < i →
          recj.passedCount < rec.passedCount) ∧
      (runAgent env c0).maxPassedCount = runningMax (runAgent env c0).history ∧
      (∀ n : Nat, runningMax ((runAgent env c0).history.take n) ≤
        runningMax (runAgent env c0).history) := by
  have hinv : LoopInv (runAgentState env c0) :=
    runLoop_inv env MAX_ITERATIONS (initState c0) (initState_inv c0)
  simp only [runAgent]
  have hh : (agentFinish env (runAgentState env c0)).history =
      (runAgentState env c0).history :=
    agentFinish_history env (runAgentState env c0)
  have hfields := agentFinish_of_not_aborted env (runAgentState env c0) hab
  have hchc : chosenCode (runAgentState env c0) = (runAgentState env c0).bestCode := by
    simp [chosenCode, hnp]
  have hchr : chosenResults (runAgentState env c0) = (runAgentState env c0).bestResults := by
    simp [chosenResults, hnp]
  rcases hinv.best with ⟨hnil, -⟩ | ⟨i, rec, hget, hcode, hres, hcnt, hall, hfirst⟩
  · exact absurd hnil hne
  · refine ⟨i, rec, ?_, ?_, ?_, ?_, ?_, ?_, ?_, ?_⟩
    · rw [hh]
      exact hget
    · rw [hfields.1, hchc, ← hcode]
    · rw [hfields.2.1, hchr, ← hres]
    · rw [hfields.2.2.1, hcnt]
    · intro j recj hj
      rw [hh] at hj
      exact hall j recj hj
    · intro j recj hj hjlt
      rw [hh] at hj
      exact hfirst j recj hj hjlt
    · rw [hfields.2.2.1, hh, hinv.maxEq]
    · intro n
      rw [hh]
      exact runningMax_take_le _ n

/-- C3: the controller's loop state where the current candidate has
failures, repair budget remains, and the repair collaborator returns an
all-whitespace candidate: the run aborts at once with the fatal error —
exactly one more iteration record exists no matter how much fuel (budget)
remains — and the run surfaces the `failed` terminal step. -/
theorem empty_repair_aborts_run (env : Env) (fuel : Nat) (s : LoopState)
    (hab : s.aborted = none) (hap : s.allPassed = false)
    (hit : s.iterations < MAX_ITERATIONS)
    (hfail : (env.execute s.currentCode).filter (fun r => !r.passed) ≠ [])
    (hbudget : s.iterations + 1 < MAX_ITERATIONS)
    (d : String)
    (hrep : env.repair s.currentCode
      ((env.execute s.currentCode).filter (fun r => !r.passed)) = Except.ok d)
    (hd : d = "" ∨ jsTrim d = "") :
    (runLoop env (fuel + 1) s).aborted =
      some "Self-repair generated empty code. Aborting." ∧
    (runLoop env (fuel + 1) s).history = s.history ++ [runRecord env s] ∧
    (agentFinish env (runLoop env (fuel + 1) s)).step = Step.failed := by
  have hflen : ¬ ((env.execute s.currentCode).filter (fun r => !r.passed)).length = 0 :=
    fun h0 => hfail (List.eq_nil_of_length_eq_zero h0)
  have habody : (loopBody env s).aborted =
      some "Self-repair generated empty code. Aborting." := by
    simp only [loopBody, runRecord, considerBest]
    by_cases hc :
        ((((env.execute s.currentCode).filter (fun r => r.passed)).length : Int) >
          s.maxPassedCount)
    · simp only [if_pos hc, if_neg hflen, if_pos hbudget, hrep, if_pos hd]
    · simp only [if_neg hc, if_neg hflen, if_pos hbudget, hrep, if_pos hd]
  have hstep : runLoop env (fuel + 1) s = loopBody env s := by
    have hrest : runLoop env fuel (loopBody env s) = loopBody env s :=
      runLoop_of_aborted env fuel (loopBody env s) (by rw [habody]; rfl)
    simp only [runLoop, hab, hap, hit, Option.isSome_none]
    simp only [Bool.false_eq_true, if_false, false_or, not_true_eq_false]
    exact hrest
  refine ⟨?_, ?_, ?_⟩
  · rw [hstep, habody]
  · rw [hstep, loopBody_history]
  · rw [hstep]
    simp only [agentFinish, habody]

/-- A per-vector outcome that passed. -/
def passingResult : TestResult :=
  { input := "1", expectedOutput := "2", actualOutput := some "2",
    error := none, passed := true }

/-- A run environment whose every execution passes all vectors and whose
optimization collaborator rejects. -/
def envOptFail : Env :=
  { execute := fun _ => [passingResult],
    repair := fun _ _ => Except.ok "unused",
    optimize := fun _ => Except.error "optimizer unavailable" }

/-- C10 counterexample: a run whose single iteration passes every test and
whose optimization collaborator then rejects ends in the `failed` terminal
step — not a success / best-effort terminal state. -/
theorem optimize_failure_counterexample :
    (runAgent envOptFail "sol").allPassed = true ∧
    (runAgent envOptFail "sol").step = Step.failed ∧
    Step.failed ≠ Step.completed := by
  refine ⟨by decide, by decide, by decide⟩

/-- C10 (amended): if the optimization collaborator fails after the loop
reached its terminal candidate, the verified (passing or best-effort)
candidate is kept as the final code state — the rewrite is discarded, not
applied — but the run ends in the `failed` terminal step with the
collaborator's error, not as a success / best-effort completion. -/
theorem optimize_failure_keeps_candidate (env : Env) (c0 : String) (e : String)
    (hab : (runAgentState env c0).aborted = none)
    (hopt : env.optimize (chosenCode (runAgentState env c0)) = Except.error e) :
    (runAgent env c0).step = Step.failed ∧
    (runAgent env c0).code = chosenCode (runAgentState env c0) ∧
    (runAgent env c0).finalCode = chosenCode (runAgentState env c0) ∧
    (runAgent env c0).errorMsg = some e := by
  simp [runAgent, agentFinish, hab, hopt]

/-- Witness for C10 (amended) at the concrete failing-optimizer
environment. -/
theorem optimize_failure_keeps_candidate_witness :
    (runAgent envOptFail "sol").step = Step.failed ∧
    (runAgent envOptFail "sol").code = chosenCode (runAgentState envOptFail "sol") ∧
    (runAgent envOptFail "sol").finalCode = chosenCode (runAgentState envOptFail "sol") ∧
    (runAgent envOptFail "sol").errorMsg = some "optimizer unavailable" :=
  optimize_failure_keeps_candidate envOptFail "sol" "optimizer unavailable"
    (by decide) rfl

/-! ## Concrete run environments used as witnesses -/

/-- A bare per-vector outcome carrying only the pass flag. -/
def mkFlagResult (b : Bool) : TestResult :=
  { input := "", expectedOutput := "", actualOutput := none,
    error := none, passed := b }

/-- Per-candidate pass flags realizing the pass-count sequence
`[3, 1, 4, 4, 2]` over 5 vectors for candidates `v1` .. `v5`. -/
def bestFlags (c : String) : List Bool :=
  if c = "v1" then [true, true, true, false, false]
  else if c = "v2" then [true, false, false, false, false]
  else if c = "v3" then [true, true, true, true, false]
  else if c = "v4" then [false, true, true, true, true]
  else [true, true, false, false, false]

/-- The repair collaborator driving `v1 → v2 → v3 → v4 → v5`. -/
def nextCandidate (c : String) : String :=
  if c = "v1" then "v2"
  else if c = "v2" then "v3"
  else if c = "v3" then "v4"
  else "v5"

/-- A run environment realizing the pass-count sequence `[3, 1, 4, 4, 2]`. -/
def envBest : Env :=
  { execute := fun c => (bestFlags c).map mkFlagResult,
    repair := fun c _ => Except.ok (nextCandidate c),
    optimize := fun c => Except.ok c }

/-- Witness for C2 at the `[3, 1, 4, 4, 2]` run. -/
theorem best_candidate_tracker_witness :
    ∃ (i : Nat) (rec : IterationRecord),
      (runAgent envBest "v1").history[i]? = some rec ∧
      (runAgent envBest "v1").finalCode = rec.code ∧
      (runAgent envBest "v1").testResults = rec.results ∧
      (rec.passedCount : Int) = (runAgent envBest "v1").maxPassedCount ∧
      (∀ (j : Nat) (recj : IterationRecord),
        (runAgent envBest "v1").history[j]? = some recj →
          recj.passedCount ≤ rec.passedCount) ∧
      (∀ (j : Nat) (recj : IterationRecord),
        (runAgent envBest "v1").history[j]? = some recj → j < i →
          recj.passedCount < rec.passedCount) ∧
      (runAgent envBest "v1").maxPassedCount =
        runningMax (runAgent envBest "v1").history ∧
      (∀ n : Nat, runningMax ((runAgent envBest "v1").history.take n) ≤
        runningMax (runAgent envBest "v1").history) :=
  best_candidate_tracker envBest "v1" (by decide) (by decide) (by decide)

/-- A failed per-vector outcome. -/
def failingResult : TestResult :=
  { input := "1", expectedOutput := "2", actualOutput := some "0",
    error := none, passed := false }

/-- A run environment whose executions fail and whose repair collaborator
returns an all-whitespace candidate. -/
def envEmptyRepair : Env :=
  { execute := fun _ => [failingResult],
    repair := fun _ _ => Except.ok "   ",
    optimize := fun _ => Except.ok "x" }

/-- Witness for C3: the whitespace repair at the first iteration aborts
the whole run with the fatal error and a single recorded iteration. -/
theorem empty_repair_aborts_run_witness :
    (runLoop envEmptyRepair 5 (initState "c0")).aborted =
      some "Self-repair generated empty code. Aborting." ∧
    (runLoop envEmptyRepair 5 (initState "c0")).history =
      (initState "c0").history ++ [runRecord envEmptyRepair (initState "c0")] ∧
    (agentFinish envEmptyRepair (runLoop envEmptyRepair 5 (initState "c0"))).step =
      Step.failed :=
  empty_repair_aborts_run envEmptyRepair 4 (initState "c0") rfl rfl
    (by decide) (by decide) (by decide) "   " rfl (Or.inr (by decide))

end ZerothAI
